import Mathlib

/-!
Verification of the KLEE feature-extraction / training pipeline.

This file gives a shallow embedding of the two pipeline stages of the
repository (scripts/extract_klee_features.py and scripts/train_model.py)
and proves the behavioural claims about them.

Modelling conventions:
- A run directory's on-disk artifacts are a `RunDir` value.  A file that may
  be missing is an `Option`; a read that may raise an exception inside a
  `try` block is a further `Option` (`some none` = the read raises, and the
  enclosing handler falls through to the defaults, exactly as the Python
  `except` branches do).
- The SQLite store `run.stats` is a `StatsDB`: its table list, the column
  list of the `stats` table, and the single fetched row (an association list
  from column name to `Option Int`, where `none` models an SQL NULL cell).
- The results root is an `FS`: an existence flag for the root, the raw
  directory listing in arbitrary OS order (name and an is-directory flag),
  and the per-directory artifact contents.  `Path.iterdir` raising
  `FileNotFoundError` on a missing root (uncaught in the script, so it
  terminates the process) is modelled by `Except.error`.
- Machine integers do not occur: every numeric value involved is an
  unbounded Python int (label, SQLite integers, counters), modelled as
  `Int`/`Nat`.
-/

/-- The whitespace characters Python's `str.strip()` removes that occur in
this pipeline's files (space, tab, CR, LF). -/
def isWs (c : Char) : Bool := c = ' ' || c = '\t' || c = '\r' || c = '\n'

/-- Python's `str.strip()`: drop leading and trailing whitespace. -/
def pyStrip (s : String) : String :=
  String.mk (((s.data.dropWhile isWs).reverse.dropWhile isWs).reverse)

/-- Split a character list at every occurrence of `sep`, keeping empty
pieces, as Python's `str.split(sep)` with a one-character separator does
(`"".split(sep) = ['']`). -/
def splitOnChar (sep : Char) : List Char → List (List Char)
  | [] => [[]]
  | c :: rest =>
    match splitOnChar sep rest with
    | [] => []
    | w :: ws => if c = sep then [] :: w :: ws else (c :: w) :: ws

/-- Python's `line.split(' ')`. -/
def pySplitSpace (s : String) : List String :=
  (splitOnChar ' ' s.data).map String.mk

/-- Python's `needle in hay` prefix test, on explicit character lists:
`isPrefixB n h` is true when `n` is a prefix of `h`. -/
def isPrefixB : List Char → List Char → Bool
  | [], _ => true
  | _ :: _, [] => false
  | a :: as, b :: bs => a == b && isPrefixB as bs

/-- Contiguous-occurrence test: `occursIn n h` is true when the character
list `n` occurs contiguously inside `h` (Python's substring `in`). -/
def occursIn (needle : List Char) : List Char → Bool
  | [] => needle.isEmpty
  | b :: bs => isPrefixB needle (b :: bs) || occursIn needle bs

/-- Python's `needle in hay` substring operator on strings. -/
def containsSub (hay needle : String) : Bool := occursIn needle.data hay.data

/-- `needle` occurs as a contiguous substring of `hay` (the mathematical
reading of Python's `in`). -/
def Substr (needle hay : String) : Prop :=
  ∃ l r, hay.data = l ++ needle.data ++ r

/-- Python's string comparison (used by `sorted`), on character lists:
lexicographic by code point. -/
def leChars : List Char → List Char → Bool
  | [], _ => true
  | _ :: _, [] => false
  | a :: as, b :: bs => if a = b then leChars as bs else decide (a < b)

/-- Python's `s1 <= s2` on strings: lexicographic by code point.  `sorted`
orders the run-directory paths by exactly this relation (all paths share the
same parent, so comparing the final component decides the order). -/
def strLe (a b : String) : Prop := leChars a.data b.data = true

instance : DecidableRel strLe := fun _ _ => inferInstanceAs (Decidable (_ = true))

/-- `pathlib.Path(...).name`: the final path component, after dropping empty
components and `.` components, as `pathlib`'s parser does. -/
def pathName (p : String) : String :=
  String.mk
    (((splitOnChar '/' p.data).filter (fun c => !(c == []) && !(c == ['.']))).getLastD [])

/-- `pathlib.Path(...).stem`: the final component without its last suffix.
`pathlib` takes the last `.` at index `i` of the name and strips from it only
when `0 < i < len(name) - 1`. -/
def pathStem (p : String) : String :=
  let n := pathName p
  let cs := n.data
  match (cs.enum.filter (fun q => q.2 == '.')).getLast? with
  | some q => if 0 < q.1 && q.1 + 1 < cs.length then String.mk (cs.take q.1) else n
  | none => n

/-- The single fetched row of the `stats` table: an association of column
name to cell value, where a `none` cell models an SQL NULL. -/
def cellOf (r : List (String × Option Int)) (col : String) : Option Int :=
  match r.find? (fun q => q.1 == col) with
  | some q => q.2
  | none => none

/-- The readable content of a run's `run.stats` SQLite store: the names in
`sqlite_master`, the columns `PRAGMA table_info(stats)` reports, and the row
`fetchone` returns (if any). -/
structure StatsDB where
  tables : List String
  columns : List String
  row : Option (List (String × Option Int))
deriving DecidableEq

/-- One `klee-out-*` run directory's artifacts.  Outer `none` = the file does
not exist; `some none` = the file exists but reading it raises (caught by the
script's `except` handlers); `some (some v)` = the read succeeds with
content `v`.  For `infoFile` the content is the first line `readline`
returns; for `warningsLog` it is the list of lines. -/
structure RunDir where
  infoFile : Option (Option String)
  runStats : Option (Option StatsDB)
  warningsLog : Option (Option (List String))

/-- The fixed metric-name list `FEATURE_COLUMNS` of
scripts/extract_klee_features.py. -/
def FEATURE_COLUMNS : List String :=
  ["Instructions", "FullBranches", "PartialBranches", "NumBranches",
   "SolverQueries", "NumQueryConstructs", "CoveredInstructions",
   "UncoveredInstructions", "UserTime", "Allocations", "ExternalCalls"]

/-- The directory-name marker `KLEE_OUT_PREFIX = "klee-out-"`. -/
def KLEE_OUT_PREFIX : String := "klee-out-"

/-- The value the `stats` dict of `extract_stats` holds for metric `col`
after the SQLite block: 0 unless the store exists, opens without error,
has a `stats` table, `col` is among `FEATURE_COLUMNS` and among the table's
columns, and the fetched row's cell for `col` is non-NULL — in which case it
is that cell's value (`row[i] if row[i] is not None else 0`). -/
def statsValue (rd : RunDir) (col : String) : Int :=
  match rd.runStats with
  | some (some db) =>
    if db.tables.contains "stats" then
      let selected := FEATURE_COLUMNS.filter (fun c => db.columns.contains c)
      match db.row with
      | some r => if selected.contains col then (cellOf r col).getD 0 else 0
      | none => 0
    else 0
  | _ => 0

/-- The warning count of `extract_stats`: the number of lines of
warnings.txt whose stripped text starts with "KLEE: WARNING"; 0 when the file
is missing or reading it raises. -/
def warnCount (rd : RunDir) : Nat :=
  match rd.warningsLog with
  | some (some lines) =>
    (lines.filter (fun l => isPrefixB "KLEE: WARNING".data (pyStrip l).data)).length
  | _ => 0

/-- `extract_stats`: the tuple `(*[stats[key] for key in FEATURE_COLUMNS],
warnings_count)` — one value per fixed metric name, in fixed order, then the
warning count. -/
def extract_stats (rd : RunDir) : List Int :=
  FEATURE_COLUMNS.map (statsValue rd) ++ [Int.ofNat (warnCount rd)]

/-- The label computation of `extract_info_and_label` (lines 94-99): 1 when
the name contains "_bad", else 0 when it contains "_good", else -1. -/
def inferLabel (function_name : String) : Int :=
  if containsSub function_name "_bad" then 1
  else if containsSub function_name "_good" then 0
  else -1

/-- `extract_info_and_label`: defaults `("unknown", -1)`; when the `info`
file exists and its first line is read, the line is stripped, split on
single spaces, the last token is taken as a path and its stem is the
function name; the label comes from `inferLabel`.  A missing file or a read
that raises leaves the defaults (the `except` branch only logs). -/
def extract_info_and_label (rd : RunDir) : String × Int :=
  match rd.infoFile with
  | none => ("unknown", -1)
  | some none => ("unknown", -1)
  | some (some first_line) =>
    let parts := pySplitSpace (pyStrip first_line)
    let function_name := pathStem (parts.getLastD "")
    (function_name, inferLabel function_name)

/-- The results root as the pipeline sees it: whether `results/` exists, its
raw entry listing (entry name, is-directory flag) in arbitrary OS order, and
each run directory's artifacts. -/
structure FS where
  rootExists : Bool
  listing : List (String × Bool)
  content : String → RunDir

/-- `collect_klee_outputs`: `sorted([d for d in RESULTS_DIR.iterdir() if
d.is_dir() and d.name.startswith(KLEE_OUT_PREFIX)])`.  When the root is
missing, `iterdir()` raises `FileNotFoundError`, which nothing catches;
the propagating exception is the `Except.error` value. -/
def collect_klee_outputs (fs : FS) : Except String (List String) :=
  if fs.rootExists then
    Except.ok (List.insertionSort strLe
      ((fs.listing.filter
        (fun e => e.2 && isPrefixB KLEE_OUT_PREFIX.data e.1.data)).map Prod.fst))
  else Except.error "FileNotFoundError: [Errno 2] No such file or directory: 'results'"

/-- The CSV header `["klee_dir_name", "function_name"] + FEATURE_COLUMNS +
["warnings", "label"]`. -/
def header : List String :=
  ["klee_dir_name", "function_name"] ++ FEATURE_COLUMNS ++ ["warnings", "label"]

/-- One dataset row, as `csv.writer` receives it:
`(klee_dir.name, function_name, *stat_values, label)`, each cell rendered as
its text (`str` of an int is `toString`). -/
def makeRow (name : String) (rd : RunDir) : List String :=
  let fl := extract_info_and_label rd
  [name, fl.1] ++ (extract_stats rd).map toString ++ [toString fl.2]

/-- `main` of scripts/extract_klee_features.py: enumerate (propagating the
missing-root error), return early writing nothing when no directory was
found (`Except.ok none`), otherwise write header plus one row per directory
in enumeration order (`Except.ok (some rows)`). -/
def extractMain (fs : FS) : Except String (Option (List (List String))) :=
  match collect_klee_outputs fs with
  | Except.error e => Except.error e
  | Except.ok out_dirs =>
    if out_dirs.isEmpty then Except.ok none
    else Except.ok (some (header :: out_dirs.map (fun n => makeRow n (fs.content n))))

/-- The bytes `csv.writer` puts in the output file for given rows: cells
joined by commas, rows terminated by CRLF (the writer is a pure function of
the row cells; no cell of this pipeline needs quoting). -/
def renderCsv (rows : List (List String)) : String :=
  String.join (rows.map (fun r => String.intercalate "," r ++ "\r\n"))

/-- The persisted dataset file: present with the rendered bytes exactly when
`main` reaches the write. -/
def writtenFile (fs : FS) : Option String :=
  match extractMain fs with
  | Except.ok (some rows) => some (renderCsv rows)
  | _ => none

/-- One parsed row of the persisted dataset as the trainer consumes it: the
numeric feature cells and the label cell. -/
structure TrainRow where
  feats : List Int
  label : Int
deriving DecidableEq

/-- `df_cleaned = df[df['label'] != -1]` of scripts/train_model.py. -/
def df_cleaned (df : List TrainRow) : List TrainRow :=
  df.filter (fun r => r.label != -1)

/-- Modelled from the spec: scikit-learn's `train_test_split(X, y,
test_size=0.2, random_state=42, stratify=y)` is external library code, not
part of this repository; only its call site (train_model.py lines 55-57) is.
The spec's contract for it: a deterministic (fixed-seed) label-stratified
split whose held-out part receives 20% of the rows, both parts preserving
the class ratio as closely as integer rounding allows.  The model: the
held-out size is `t = ceil(0.2 * n)`; class 1 contributes
`floor(t * m1 / n)` rows to it and the other class the rest; the fixed
seed's shuffle is a fixed permutation, modelled as the identity, so the
function is deterministic by construction.  Returns (train, test). -/
def train_test_split (rows : List TrainRow) : List TrainRow × List TrainRow :=
  let n := rows.length
  let t := (n + 4) / 5
  let ones := rows.filter (fun r => r.label == 1)
  let zeros := rows.filter (fun r => !(r.label == 1))
  let k1 := t * ones.length / n
  let k0 := t - k1
  (ones.drop k1 ++ zeros.drop k0, ones.take k1 ++ zeros.take k0)

/-- The load/clean/split stage of scripts/train_model.py: a missing dataset
file or an empty cleaned frame exits before any split or fit (`exit()`,
modelled as `Except.error` carrying the printed diagnostic); otherwise the
labeled rows are split. -/
def train_model (csvData : Option (List TrainRow)) :
    Except String (List TrainRow × List TrainRow) :=
  match csvData with
  | none => Except.error "ERROR: Could not find the file"
  | some df =>
    if (df_cleaned df).isEmpty then
      Except.error "ERROR: After cleaning, no data with labels 0 or 1 was found."
    else Except.ok (train_test_split (df_cleaned df))

/-- `leChars` is total. -/
theorem leChars_total : ∀ x y : List Char, leChars x y = true ∨ leChars y x = true
  | [], _ => Or.inl rfl
  | _ :: _, [] => Or.inr rfl
  | a :: as, b :: bs => by
    by_cases hab : a = b
    · subst hab
      rcases leChars_total as bs with h | h
      · exact Or.inl (by simp [leChars, h])
      · exact Or.inr (by simp [leChars, h])
    · rcases lt_or_gt_of_ne hab with h | h
      · exact Or.inl (by simp [leChars, hab, h])
      · exact Or.inr (by simp [leChars, Ne.symm hab, h, not_lt_of_gt h])

/-- `leChars` is transitive. -/
theorem leChars_trans : ∀ x y z : List Char,
    leChars x y = true → leChars y z = true → leChars x z = true
  | [], _, _, _, _ => rfl
  | _ :: _, [], _, h, _ => by simp [leChars] at h
  | _ :: _, _ :: _, [], _, h => by simp [leChars] at h
  | a :: as, b :: bs, c :: cs, h1, h2 => by
    simp only [leChars] at h1 h2 ⊢
    by_cases hab : a = b <;> by_cases hbc : b = c
    · subst hab; subst hbc
      simp only [if_pos rfl] at h1 h2 ⊢
      exact leChars_trans as bs cs h1 h2
    · subst hab
      simp only [if_neg hbc] at h2 ⊢
      exact h2
    · subst hbc
      simp only [if_neg hab] at h1 ⊢
      exact h1
    · simp only [if_neg hab, if_neg hbc, decide_eq_true_eq] at h1 h2
      have hac : a < c := lt_trans h1 h2
      simp [ne_of_lt hac, hac]

/-- `leChars` is antisymmetric. -/
theorem leChars_antisymm : ∀ x y : List Char,
    leChars x y = true → leChars y x = true → x = y
  | [], [], _, _ => rfl
  | [], _ :: _, _, h => by simp [leChars] at h
  | _ :: _, [], h, _ => by simp [leChars] at h
  | a :: as, b :: bs, h1, h2 => by
    simp only [leChars] at h1 h2
    by_cases hab : a = b
    · subst hab
      simp only [if_pos rfl] at h1 h2
      rw [leChars_antisymm as bs h1 h2]
    · simp only [if_neg hab, if_neg (Ne.symm hab), decide_eq_true_eq] at h1 h2
      exact absurd h2 (not_lt_of_gt h1)

instance : IsTotal String strLe := ⟨fun a b => leChars_total a.data b.data⟩

instance : IsTrans String strLe := ⟨fun a b c => leChars_trans a.data b.data c.data⟩

instance : IsAntisymm String strLe :=
  ⟨fun a b h1 h2 => by
    cases a; cases b
    exact congrArg String.mk (leChars_antisymm _ _ h1 h2)⟩

/-- `isPrefixB n h` decides whether `h` factors as `n ++ r`. -/
theorem isPrefixB_iff : ∀ n h : List Char, isPrefixB n h = true ↔ ∃ r, h = n ++ r
  | [], h => by simp [isPrefixB]
  | a :: as, [] => by simp [isPrefixB]
  | a :: as, b :: bs => by
    simp only [isPrefixB, Bool.and_eq_true, beq_iff_eq, isPrefixB_iff as bs,
      List.cons_append, List.cons.injEq]
    constructor
    · rintro ⟨heq, r, hr⟩
      exact ⟨r, heq.symm, hr⟩
    · rintro ⟨r, heq, hr⟩
      exact ⟨heq.symm, r, hr⟩

/-- `occursIn n h` decides whether `h` factors as `l ++ n ++ r`. -/
theorem occursIn_iff : ∀ n h : List Char, occursIn n h = true ↔ ∃ l r, h = l ++ n ++ r
  | n, [] => by
    cases n <;> simp [occursIn, List.isEmpty, List.append_eq_nil]
  | n, b :: bs => by
    simp only [occursIn, Bool.or_eq_true, isPrefixB_iff, occursIn_iff n bs]
    constructor
    · rintro (⟨r, hr⟩ | ⟨l, r, hr⟩)
      · exact ⟨[], r, by simp [hr]⟩
      · exact ⟨b :: l, r, by simp [hr]⟩
    · rintro ⟨l, r, hr⟩
      cases l with
      | nil => exact Or.inl ⟨r, by simpa using hr⟩
      | cons x xs =>
        simp only [List.cons_append, List.cons.injEq] at hr
        exact Or.inr ⟨xs, r, hr.2⟩

/-- The Boolean substring test agrees with the factorization reading. -/
theorem containsSub_iff (hay needle : String) :
    containsSub hay needle = true ↔ Substr needle hay :=
  occursIn_iff needle.data hay.data

/-- C1: for every program-unit identifier string the label inferrer returns
Vulnerable (1) when the identifier contains the "_bad" marker, else
NotVulnerable (0) when it contains the "_good" marker, else Unknown (-1);
when both markers occur, "_bad" takes precedence and the result is 1. -/
theorem label_inferrer_trichotomy (s : String) :
    (Substr "_bad" s → inferLabel s = 1) ∧
    (¬ Substr "_bad" s → Substr "_good" s → inferLabel s = 0) ∧
    (¬ Substr "_bad" s → ¬ Substr "_good" s → inferLabel s = -1) := by
  have toFalse : ∀ m : String, ¬ Substr m s → containsSub s m = false := by
    intro m hm
    rcases Bool.eq_false_or_eq_true (containsSub s m) with h | h
    · exact absurd ((containsSub_iff s m).mp h) hm
    · exact h
  refine ⟨fun h => ?_, fun h1 h2 => ?_, fun h1 h2 => ?_⟩
  · simp [inferLabel, (containsSub_iff s "_bad").mpr h]
  · simp [inferLabel, toFalse _ h1, (containsSub_iff s "_good").mpr h2]
  · simp [inferLabel, toFalse _ h1, toFalse _ h2]

/-- Witness for C1: the three branches (including the both-markers
precedence case) at concrete identifiers. -/
theorem label_inferrer_trichotomy_witness :
    inferLabel "CWE190_x_bad_good" = 1 ∧ inferLabel "CWE190_y_good" = 0 ∧
    inferLabel "CWE190_z" = -1 :=
  ⟨(label_inferrer_trichotomy "CWE190_x_bad_good").1 ((containsSub_iff _ _).mp (by decide)),
   (label_inferrer_trichotomy "CWE190_y_good").2.1
     (fun h => absurd ((containsSub_iff _ _).mpr h) (by decide))
     ((containsSub_iff _ _).mp (by decide)),
   (label_inferrer_trichotomy "CWE190_z").2.2
     (fun h => absurd ((containsSub_iff _ _).mpr h) (by decide))
     (fun h => absurd ((containsSub_iff _ _).mpr h) (by decide))⟩

/-- C3: for every run directory the metric extractor returns a fully
populated fixed-order vector — one `Int` per fixed metric name plus the
warning count, never a missing field — a full-width row is formed from it
for every run, and when the statistics store is missing, or opening or
querying it raises, every metric field is exactly 0. -/
theorem stats_defaults_and_shape (rd : RunDir) :
    (extract_stats rd).length = FEATURE_COLUMNS.length + 1 ∧
    (∀ name, (makeRow name rd).length = header.length) ∧
    (rd.runStats = none →
      extract_stats rd =
        List.replicate FEATURE_COLUMNS.length 0 ++ [Int.ofNat (warnCount rd)]) ∧
    (rd.runStats = some none →
      extract_stats rd =
        List.replicate FEATURE_COLUMNS.length 0 ++ [Int.ofNat (warnCount rd)]) := by
  refine ⟨by simp [extract_stats], fun name => by simp [makeRow, header, extract_stats], ?_, ?_⟩
  · intro h
    have hz : ∀ c, statsValue rd c = 0 := fun c => by simp [statsValue, h]
    simp [extract_stats, hz, FEATURE_COLUMNS, List.replicate]
  · intro h
    have hz : ∀ c, statsValue rd c = 0 := fun c => by simp [statsValue, h]
    simp [extract_stats, hz, FEATURE_COLUMNS, List.replicate]

/-- The run directory with no artifacts at all. -/
def rdAllMissing : RunDir := ⟨none, none, none⟩

/-- Witness for C3: a run with no statistics store gets the all-zero metric
vector. -/
theorem stats_defaults_and_shape_witness :
    rdAllMissing.runStats = none ∧
    extract_stats rdAllMissing =
      List.replicate FEATURE_COLUMNS.length 0 ++ [Int.ofNat (warnCount rdAllMissing)] :=
  ⟨rfl, (stats_defaults_and_shape rdAllMissing).2.2.1 rfl⟩

/-- C10: when the store has the expected `stats` table, a selected metric
column, and a fetched row whose cell for that column is NULL, the recorded
metric is 0; the value enters the always-populated `Int` vector, so no
emitted metric field is ever null. -/
theorem null_cell_maps_to_zero (rd : RunDir) (db : StatsDB)
    (r : List (String × Option Int)) (col : String)
    (hdb : rd.runStats = some (some db))
    (htab : db.tables.contains "stats" = true)
    (hcolF : col ∈ FEATURE_COLUMNS)
    (hcolC : db.columns.contains col = true)
    (hrow : db.row = some r)
    (hnull : cellOf r col = none) :
    statsValue rd col = 0 ∧
    extract_stats rd = FEATURE_COLUMNS.map (statsValue rd) ++ [Int.ofNat (warnCount rd)] := by
  refine ⟨?_, rfl⟩
  simp only [statsValue, hdb, htab, hrow, if_true]
  cases hsel : (FEATURE_COLUMNS.filter (fun c => db.columns.contains c)).contains col <;>
    simp [hnull]

/-- A store whose single row holds NULL in the Instructions column. -/
def dbNull : StatsDB :=
  ⟨["stats"], ["Instructions"], some [("Instructions", none)]⟩

/-- A run directory carrying `dbNull`. -/
def rdNull : RunDir := ⟨none, some (some dbNull), none⟩

/-- Witness for C10: the NULL Instructions cell is recorded as 0. -/
theorem null_cell_maps_to_zero_witness :
    statsValue rdNull "Instructions" = 0 ∧
    extract_stats rdNull =
      FEATURE_COLUMNS.map (statsValue rdNull) ++ [Int.ofNat (warnCount rdNull)] :=
  null_cell_maps_to_zero rdNull dbNull [("Instructions", none)] "Instructions"
    rfl rfl (by decide) rfl rfl rfl

/-- C9: a run whose `info` file is missing, or whose first line cannot be
read (the read raises), yields exactly the placeholder string "unknown" in
the function-name column — not an empty or null field — together with
label -1 in the label column. -/
theorem missing_info_placeholder_row (rd : RunDir) (name : String)
    (h : rd.infoFile = none ∨ rd.infoFile = some none) :
    extract_info_and_label rd = ("unknown", -1) ∧
    (makeRow name rd)[1]? = some "unknown" ∧
    (makeRow name rd).getLast? = some "-1" ∧
    ("unknown" : String) ≠ "" := by
  have he : extract_info_and_label rd = ("unknown", -1) := by
    rcases h with h | h <;> simp [extract_info_and_label, h]
  refine ⟨he, ?_, ?_, by decide⟩
  · simp [makeRow, he]
  · have hm : makeRow name rd =
        (name :: "unknown" :: (extract_stats rd).map toString) ++ ["-1"] := by
      simp only [makeRow, he]
      exact List.append_assoc _ _ _ |>.symm ▸ rfl
    rw [hm, List.getLast?_concat]

/-- Witness for C9: the artifact-free run directory yields the "unknown"
cell and the "-1" label cell. -/
theorem missing_info_placeholder_row_witness :
    (rdAllMissing.infoFile = none ∨ rdAllMissing.infoFile = some none) ∧
    (extract_info_and_label rdAllMissing = ("unknown", -1) ∧
     (makeRow "klee-out-0" rdAllMissing)[1]? = some "unknown" ∧
     (makeRow "klee-out-0" rdAllMissing).getLast? = some "-1" ∧
     ("unknown" : String) ≠ "") :=
  ⟨Or.inl rfl, missing_info_placeholder_row rdAllMissing "klee-out-0" (Or.inl rfl)⟩

/-- The reader's behaviour when the `info` file exists and its first line is
read: strip, split on spaces, last token, stem. -/
theorem info_line_case (rd : RunDir) (l : String) (h : rd.infoFile = some (some l)) :
    extract_info_and_label rd =
      (pathStem ((pySplitSpace (pyStrip l)).getLastD ""),
       inferLabel (pathStem ((pySplitSpace (pyStrip l)).getLastD ""))) := by
  obtain ⟨inf, rs, wl⟩ := rd
  have h' : inf = some (some l) := h
  subst h'
  rfl

/-- C4 (amended): the metadata reader never raises past its boundary, and
every failure branch ends in label -1 (Unknown) with the pipeline
continuing; but the identifier it returns is the placeholder "unknown" only
for a missing file or a raising read — an empty (or whitespace-only) first
line is parsed successfully into the empty-string identifier "", not into a
null identifier.  Both degenerate identifiers are labeled Unknown. -/
theorem info_reader_never_raises (rd : RunDir) :
    (rd.infoFile = none → extract_info_and_label rd = ("unknown", -1)) ∧
    (rd.infoFile = some none → extract_info_and_label rd = ("unknown", -1)) ∧
    (∀ l, rd.infoFile = some (some l) → pyStrip l = "" →
      extract_info_and_label rd = ("", -1)) ∧
    inferLabel "unknown" = -1 ∧ inferLabel "" = -1 := by
  refine ⟨fun h => by simp [extract_info_and_label, h],
          fun h => by simp [extract_info_and_label, h], ?_, by decide, by decide⟩
  intro l h hstrip
  rw [info_line_case rd l h, hstrip]
  rfl

/-- Witness for C4's amended statement: the missing-file branch at the
artifact-free run directory. -/
theorem info_reader_never_raises_witness :
    rdAllMissing.infoFile = none ∧
    extract_info_and_label rdAllMissing = ("unknown", -1) :=
  ⟨rfl, (info_reader_never_raises rdAllMissing).1 rfl⟩

/-- A run directory whose `info` file exists but is empty: `readline`
returns "". -/
def rdEmptyInfo : RunDir := ⟨some (some ""), none, none⟩

/-- Counterexample to C4 as stated: for empty metadata content the reader
does not fail and does not return a null identifier — it returns the
ordinary empty string "" (distinct from the reader's placeholder
"unknown"), which is emitted as an empty cell in the dataset row. -/
theorem empty_info_line_yields_empty_ident :
    extract_info_and_label rdEmptyInfo = ("", -1) ∧
    ("" : String) ≠ "unknown" ∧
    (makeRow "klee-out-7" rdEmptyInfo)[1]? = some "" :=
  ⟨rfl, by decide, rfl⟩

/-- C2: for every enumerated run-directory list the assembler emits the
header plus exactly one row per directory, in enumeration order, whatever
each directory's artifacts are (`fs.content` is arbitrary, so any mix of
missing or malformed metadata, stores and logs is covered); no per-run
failure aborts the batch or drops a row, and the row count equals the
directory count. -/
theorem one_row_per_directory (fs : FS) (dirs : List String)
    (hc : collect_klee_outputs fs = Except.ok dirs) (hne : dirs ≠ []) :
    extractMain fs =
      Except.ok (some (header :: dirs.map (fun n => makeRow n (fs.content n)))) ∧
    (dirs.map (fun n => makeRow n (fs.content n))).length = dirs.length := by
  refine ⟨?_, by simp⟩
  cases dirs with
  | nil => exact absurd rfl hne
  | cons d ds => simp [extractMain, hc, List.isEmpty]

/-- A results root holding two run directories (with no artifacts inside)
and one stray non-directory entry. -/
def fsA : FS :=
  ⟨true, [("klee-out-1", true), ("klee-out-0", true), ("stats.csv", false)],
   fun _ => rdAllMissing⟩

/-- Witness for C2: two artifact-free runs still produce exactly two rows,
in sorted enumeration order. -/
theorem one_row_per_directory_witness :
    extractMain fsA =
      Except.ok (some (header ::
        (["klee-out-0", "klee-out-1"].map (fun n => makeRow n (fsA.content n))))) ∧
    ((["klee-out-0", "klee-out-1"] : List String).map
        (fun n => makeRow n (fsA.content n))).length =
      (["klee-out-0", "klee-out-1"] : List String).length :=
  one_row_per_directory fsA ["klee-out-0", "klee-out-1"] rfl (by decide)

/-- C8: a missing results root is fatal before any work happens: the
enumerator's error propagates out of `extractMain` (no enumeration result,
no rows) and no dataset file is written. -/
theorem missing_root_fatal (fs : FS) (h : fs.rootExists = false) :
    collect_klee_outputs fs =
      Except.error "FileNotFoundError: [Errno 2] No such file or directory: 'results'" ∧
    extractMain fs =
      Except.error "FileNotFoundError: [Errno 2] No such file or directory: 'results'" ∧
    writtenFile fs = none := by
  have hc : collect_klee_outputs fs =
      Except.error "FileNotFoundError: [Errno 2] No such file or directory: 'results'" := by
    simp [collect_klee_outputs, h]
  exact ⟨hc, by simp [extractMain, hc], by simp [writtenFile, extractMain, hc]⟩

/-- A configuration whose results root does not exist. -/
def fsNoRoot : FS := ⟨false, [], fun _ => rdAllMissing⟩

/-- Witness for C8: the missing-root configuration terminates with the
diagnostic and writes nothing. -/
theorem missing_root_fatal_witness :
    collect_klee_outputs fsNoRoot =
      Except.error "FileNotFoundError: [Errno 2] No such file or directory: 'results'" ∧
    extractMain fsNoRoot =
      Except.error "FileNotFoundError: [Errno 2] No such file or directory: 'results'" ∧
    writtenFile fsNoRoot = none :=
  missing_root_fatal fsNoRoot rfl

/-- C5: two assembler runs over the same root state — same root existence,
the same directory entries in any OS enumeration order, and unchanged
per-run artifacts — produce the same `extractMain` result and hence
byte-for-byte the same persisted dataset file (header, row order and every
cell included). -/
theorem dataset_deterministic (fs1 fs2 : FS)
    (hroot : fs1.rootExists = fs2.rootExists)
    (hlist : List.Perm fs1.listing fs2.listing)
    (hcont : fs1.content = fs2.content) :
    extractMain fs1 = extractMain fs2 ∧ writtenFile fs1 = writtenFile fs2 := by
  have hc : collect_klee_outputs fs1 = collect_klee_outputs fs2 := by
    unfold collect_klee_outputs
    rw [hroot]
    cases h2 : fs2.rootExists with
    | false => simp
    | true =>
      simp only [if_true]
      congr 1
      exact List.eq_of_perm_of_sorted
        (((List.perm_insertionSort _ _).trans
          ((hlist.filter _).map Prod.fst)).trans
          (List.perm_insertionSort _ _).symm)
        (List.sorted_insertionSort _ _) (List.sorted_insertionSort _ _)
  have hm : extractMain fs1 = extractMain fs2 := by
    unfold extractMain
    rw [hc, hcont]
  exact ⟨hm, by unfold writtenFile; rw [hm]⟩

/-- One OS enumeration order of a two-run root. -/
def fsB1 : FS := ⟨true, [("klee-out-0", true), ("klee-out-1", true)], fun _ => rdAllMissing⟩

/-- The same root enumerated in the opposite order. -/
def fsB2 : FS := ⟨true, [("klee-out-1", true), ("klee-out-0", true)], fun _ => rdAllMissing⟩

/-- Witness for C5: the two enumeration orders give identical datasets. -/
theorem dataset_deterministic_witness :
    extractMain fsB1 = extractMain fsB2 ∧ writtenFile fsB1 = writtenFile fsB2 :=
  dataset_deterministic fsB1 fsB2 rfl (by decide) rfl

/-- C6: the trainer's cleaning step keeps exactly the rows whose label is
not Unknown (-1), and when nothing remains it terminates fatally with the
zero-usable-rows diagnostic, reaching no split and no fit. -/
theorem trainer_drops_unknown_and_fails_on_empty (df : List TrainRow) :
    (∀ r, r ∈ df_cleaned df ↔ (r ∈ df ∧ r.label ≠ -1)) ∧
    (df_cleaned df = [] →
      train_model (some df) =
        Except.error "ERROR: After cleaning, no data with labels 0 or 1 was found.") := by
  constructor
  · intro r
    simp [df_cleaned, List.mem_filter]
  · intro h
    simp [train_model, h]

/-- A dataset whose only row is Unknown-labeled. -/
def dfUnknownOnly : List TrainRow := [⟨[0, 0, 0, 0, 0, 0, 0, 0, 0, 0, 0, 0], -1⟩]

/-- Witness for C6: the all-Unknown dataset is fatal. -/
theorem trainer_drops_unknown_and_fails_on_empty_witness :
    df_cleaned dfUnknownOnly = [] ∧
    train_model (some dfUnknownOnly) =
      Except.error "ERROR: After cleaning, no data with labels 0 or 1 was found." :=
  ⟨rfl, (trainer_drops_unknown_and_fails_on_empty dfUnknownOnly).2 rfl⟩

/-- Cancellation core of the stratification bounds: with `k1 + s = t` and
`m1 + u = n`, the proportionality bounds on the class-1 test allocation
transfer to the complementary class. -/
theorem stratify_core (n t k1 m1 s u : Nat) (hs : k1 + s = t) (hu : m1 + u = n)
    (hb1 : n * k1 ≤ t * m1) (hb2 : t * m1 < n * k1 + n) :
    t * u ≤ n * s ∧ n * s < t * u + n := by
  have e1 : n * k1 + n * s = n * t := by rw [← Nat.mul_add, hs]
  have e2 : t * m1 + t * u = t * n := by rw [← Nat.mul_add, hu]
  have e3 : n * t = t * n := Nat.mul_comm n t
  constructor
  · have h := Nat.add_le_add_right hb1 (n * s)
    rw [e1, e3, ← e2] at h
    exact Nat.le_of_add_le_add_left h
  · have h := Nat.add_lt_add_right hb2 (t * u)
    rw [e2, ← e3, ← e1] at h
    have h2 : n * k1 + n * s < n * k1 + (t * u + n) := by
      have hre : n * k1 + n + t * u = n * k1 + (t * u + n) := by ring
      rw [← hre]
      exact h
    exact Nat.lt_of_add_lt_add_left h2

/-- C7: on every non-empty list of labeled rows the split partitions the
rows into train and test (their concatenation is a permutation of the
input), the held-out size is exactly the 20% rounding `ceil(n / 5)` (so
`5 * |test|` lies within 4 of `n`), and each class's share of the test
subset is within one row of exact proportionality to its share of the whole
— label stratification up to integer rounding.  The modelled split is a
pure function of its input (the fixed-seed shuffle is a fixed permutation),
so it is identical across runs on the same input. -/
theorem split_sizes_stratified (rows : List TrainRow) (hne : rows ≠ [])
    (hlab : ∀ r ∈ rows, r.label = 0 ∨ r.label = 1) :
    (train_test_split rows).2.length = (rows.length + 4) / 5 ∧
    (train_test_split rows).1.length = rows.length - (rows.length + 4) / 5 ∧
    rows.length ≤ 5 * ((rows.length + 4) / 5) ∧
    5 * ((rows.length + 4) / 5) ≤ rows.length + 4 ∧
    List.Perm ((train_test_split rows).2 ++ (train_test_split rows).1) rows ∧
    rows.length * ((train_test_split rows).2.filter (fun r => r.label == 1)).length ≤
      ((rows.length + 4) / 5) * (rows.filter (fun r => r.label == 1)).length ∧
    ((rows.length + 4) / 5) * (rows.filter (fun r => r.label == 1)).length <
      rows.length * ((train_test_split rows).2.filter (fun r => r.label == 1)).length
        + rows.length ∧
    ((rows.length + 4) / 5) *
        (rows.length - (rows.filter (fun r => r.label == 1)).length) ≤
      rows.length * ((train_test_split rows).2.length -
        ((train_test_split rows).2.filter (fun r => r.label == 1)).length) ∧
    rows.length * ((train_test_split rows).2.length -
        ((train_test_split rows).2.filter (fun r => r.label == 1)).length) <
      ((rows.length + 4) / 5) *
        (rows.length - (rows.filter (fun r => r.label == 1)).length) + rows.length := by
  have hn : 0 < rows.length := List.length_pos.mpr hne
  set n := rows.length with hndef
  set t := (n + 4) / 5 with htdef
  set ones := rows.filter (fun r => r.label == 1) with honesdef
  set zeros := rows.filter (fun r => !(r.label == 1)) with hzerosdef
  set m1 := ones.length with hm1def
  set k1 := t * m1 / n with hk1def
  have hsplit : train_test_split rows =
      (ones.drop k1 ++ zeros.drop (t - k1), ones.take k1 ++ zeros.take (t - k1)) := rfl
  have hpp : List.Perm (ones ++ zeros) rows := List.filter_append_perm _ rows
  have hmn : m1 + zeros.length = n := by simpa using hpp.length_eq
  clear_value k1 m1 zeros ones t n
  have ht_le : t ≤ n := by omega
  have hm1n : m1 ≤ n := by omega
  have hk1m : k1 ≤ m1 := by
    have h1 : t * m1 ≤ n * m1 := Nat.mul_le_mul_right m1 ht_le
    have h2 : n * m1 / n = m1 := Nat.mul_div_cancel_left m1 hn
    calc k1 = t * m1 / n := hk1def
      _ ≤ n * m1 / n := Nat.div_le_div_right h1
      _ = m1 := h2
  have hk1t : k1 ≤ t := by
    have h1 : t * m1 ≤ t * n := Nat.mul_le_mul_left t hm1n
    have h2 : t * n / n = t := by rw [Nat.mul_comm]; exact Nat.mul_div_cancel_left t hn
    calc k1 = t * m1 / n := hk1def
      _ ≤ t * n / n := Nat.div_le_div_right h1
      _ = t := h2
  have hk0 : t - k1 ≤ zeros.length := by
    rcases Nat.le_total t zeros.length with h | h
    · omega
    · have e1 : (t - zeros.length) * n + zeros.length * n = t * n := by
        rw [← Nat.add_mul, Nat.sub_add_cancel h]
      have e2 : t * m1 + t * zeros.length = t * n := by
        rw [← Nat.mul_add, hmn]
      have e3 : t * zeros.length ≤ zeros.length * n := by
        calc t * zeros.length ≤ n * zeros.length := Nat.mul_le_mul_right _ ht_le
          _ = zeros.length * n := Nat.mul_comm _ _
      have h4 := Nat.add_le_add_left e3 (t * m1)
      rw [e2] at h4
      have h5 : (t - zeros.length) * n + zeros.length * n ≤ t * m1 + zeros.length * n := by
        rw [e1]
        exact h4
      have key : (t - zeros.length) * n ≤ t * m1 := Nat.le_of_add_le_add_right h5
      have h6 : t - zeros.length ≤ k1 := by
        rw [hk1def]
        exact (Nat.le_div_iff_mul_le hn).mpr key
      omega
  have hlen_te : (ones.take k1 ++ zeros.take (t - k1)).length = t := by
    rw [List.length_append, List.length_take, List.length_take,
      Nat.min_eq_left (hm1def ▸ hk1m), Nat.min_eq_left hk0]
    omega
  have hlen_tr : (ones.drop k1 ++ zeros.drop (t - k1)).length = n - t := by
    rw [List.length_append, List.length_drop, List.length_drop]
    omega
  have hfil1 : (ones.take k1 ++ zeros.take (t - k1)).filter (fun r => r.label == 1)
      = ones.take k1 := by
    rw [List.filter_append]
    have h1 : (ones.take k1).filter (fun r => r.label == 1) = ones.take k1 := by
      apply List.filter_eq_self.mpr
      intro a ha
      have hmem := List.take_subset _ _ ha
      rw [honesdef] at hmem
      exact (List.mem_filter.mp hmem).2
    have h2 : (zeros.take (t - k1)).filter (fun r => r.label == 1) = [] := by
      apply List.filter_eq_nil_iff.mpr
      intro a ha
      have hmem := List.take_subset _ _ ha
      rw [hzerosdef] at hmem
      have hb := (List.mem_filter.mp hmem).2
      simp only [Bool.not_eq_true'] at hb
      simp [hb]
    rw [h1, h2, List.append_nil]
  have hte1 : ((ones.take k1 ++ zeros.take (t - k1)).filter (fun r => r.label == 1)).length
      = k1 := by
    rw [hfil1, List.length_take, Nat.min_eq_left (hm1def ▸ hk1m)]
  have hb1 : n * k1 ≤ t * m1 := by
    rw [hk1def, Nat.mul_comm]
    exact Nat.div_mul_le_self (t * m1) n
  have hb2 : t * m1 < n * k1 + n := by
    have hd := Nat.div_add_mod (t * m1) n
    have hmo := Nat.mod_lt (t * m1) hn
    calc t * m1 = n * (t * m1 / n) + t * m1 % n := hd.symm
      _ < n * (t * m1 / n) + n := Nat.add_lt_add_left hmo _
      _ = n * k1 + n := by rw [← hk1def]
  have hcore := stratify_core n t k1 m1 (t - k1) (n - m1)
    (by omega) (by omega) hb1 hb2
  have hperm : List.Perm
      ((ones.take k1 ++ zeros.take (t - k1)) ++ (ones.drop k1 ++ zeros.drop (t - k1)))
      rows := by
    have h1 : List.Perm (zeros.take (t - k1) ++ ones.drop k1)
        (ones.drop k1 ++ zeros.take (t - k1)) := List.perm_append_comm
    have h2 : List.Perm
        (ones.take k1 ++ ((zeros.take (t - k1) ++ ones.drop k1) ++ zeros.drop (t - k1)))
        (ones.take k1 ++ ((ones.drop k1 ++ zeros.take (t - k1)) ++ zeros.drop (t - k1))) :=
      List.Perm.append_left _ (List.Perm.append_right _ h1)
    have e1 : (ones.take k1 ++ zeros.take (t - k1)) ++ (ones.drop k1 ++ zeros.drop (t - k1))
        = ones.take k1 ++ ((zeros.take (t - k1) ++ ones.drop k1) ++ zeros.drop (t - k1)) := by
      simp only [List.append_assoc]
    have e2 : ones.take k1 ++ ((ones.drop k1 ++ zeros.take (t - k1)) ++ zeros.drop (t - k1))
        = (ones.take k1 ++ ones.drop k1) ++ (zeros.take (t - k1) ++ zeros.drop (t - k1)) := by
      simp only [List.append_assoc]
    rw [e1]
    refine h2.trans ?_
    rw [e2, List.take_append_drop, List.take_append_drop]
    exact hpp
  simp only [hsplit]
  refine ⟨hlen_te, hlen_tr, by omega, by omega, hperm, ?_, ?_, ?_, ?_⟩
  · rw [hte1]
    exact hb1
  · rw [hte1]
    exact hb2
  · rw [hlen_te, hte1]
    exact hcore.1
  · rw [hlen_te, hte1]
    exact hcore.2

/-- Five labeled rows: three Vulnerable, two NotVulnerable. -/
def rowsW : List TrainRow :=
  [⟨[1], 1⟩, ⟨[2], 1⟩, ⟨[3], 1⟩, ⟨[4], 0⟩, ⟨[5], 0⟩]

/-- Witness for C7: the split of the five concrete labeled rows. -/
theorem split_sizes_stratified_witness :
    rowsW ≠ [] ∧ (∀ r ∈ rowsW, r.label = 0 ∨ r.label = 1) ∧
    ((train_test_split rowsW).2.length = (rowsW.length + 4) / 5 ∧
     (train_test_split rowsW).1.length = rowsW.length - (rowsW.length + 4) / 5 ∧
     rowsW.length ≤ 5 * ((rowsW.length + 4) / 5) ∧
     5 * ((rowsW.length + 4) / 5) ≤ rowsW.length + 4 ∧
     List.Perm ((train_test_split rowsW).2 ++ (train_test_split rowsW).1) rowsW ∧
     rowsW.length * ((train_test_split rowsW).2.filter (fun r => r.label == 1)).length ≤
       ((rowsW.length + 4) / 5) * (rowsW.filter (fun r => r.label == 1)).length ∧
     ((rowsW.length + 4) / 5) * (rowsW.filter (fun r => r.label == 1)).length <
       rowsW.length * ((train_test_split rowsW).2.filter (fun r => r.label == 1)).length
         + rowsW.length ∧
     ((rowsW.length + 4) / 5) *
         (rowsW.length - (rowsW.filter (fun r => r.label == 1)).length) ≤
       rowsW.length * ((train_test_split rowsW).2.length -
         ((train_test_split rowsW).2.filter (fun r => r.label == 1)).length) ∧
     rowsW.length * ((train_test_split rowsW).2.length -
         ((train_test_split rowsW).2.filter (fun r => r.label == 1)).length) <
       ((rowsW.length + 4) / 5) *
         (rowsW.length - (rowsW.filter (fun r => r.label == 1)).length) + rowsW.length) :=
  ⟨by decide, by decide, split_sizes_stratified rowsW (by decide) (by decide)⟩
